import Mathlib

/-!
Verification development for the debug admin workflow of the OpenAuth worker
(`src/debug.ts`).

Modelling conventions (shallow embedding):

* JS strings are Lean `String`s; where character-level reasoning is needed we
  work on `String.data : List Char`.  `startsWith` is modelled by
  `strHasPfx`, a structural prefix test on the character lists.
* The Cloudflare KV namespace (`AUTH_STORE`) is modelled by `Store`, an
  association list of key/value pairs.  Real KV never holds two entries with
  the same key, so theorems about it assume `(s.map Prod.fst).Nodup` where
  duplicates would matter.
* `list({prefix, cursor, limit})` is modelled by `kvList`.  The cursor is an
  opaque continuation token in the real API; we model it as the list of key
  names already returned.  For the access patterns appearing in this code
  (keys are only deleted, never inserted, between successive pages) this
  produces the same page sequence as the real lexicographic-position cursor.
* The module-level mutable `currentDebugChallenge : string | null` is passed
  in and out of each handler explicitly as `pending : Option String`.
* `Math.random().toString(36).substring(2, 8).toUpperCase()` is modelled by
  an explicit `fresh : String` input to the listing handler: the handler is a
  deterministic function of the random draw.
* `await`ed store operations are sequentialised; `Promise.all` fan-outs of
  independent deletions are folded sequentially (deletions of distinct keys
  commute, and the error counter is order-insensitive).
* Exceptions are modelled by explicit failure oracles where a handler
  catches them: `fails : String → Bool` decides which `delete` calls throw
  (clear-all catches these per key), `listFatal` decides which `list` calls
  throw inside the clear-all scan loop (caught by the outer `catch`), and
  `getFails : Bool` decides whether the subject-mapping `get` of the
  delete-one handler throws (caught by its inner `try`).
-/

/-- JS `p.startsWith`/prefix test, structurally on the character lists. -/
def strHasPfx (p s : String) : Bool :=
  p.data.isPrefixOf s.data

/-- The `email\u001f` key-family marker (`EMAIL_PREFIX` in `src/debug.ts`). -/
def EMAIL_PFX : String := "email\x1f"

/-- The `oauth:refresh\u001f` key-family marker (the refresh-token family prefix
built from `REFRESH_TOKEN_PREFIX_PART1` and `DELIMITER` in `src/debug.ts`). -/
def REFRESH_PFX : String := "oauth:refresh\x1f"

/-- The `\u001f` (unit separator) delimiter character. -/
def DELIM : Char := '\x1f'

/-- One pass of JS `String.replace(/c/g, r)` where the pattern is the single
character `c`: every occurrence of `c` is replaced by the string `r`. -/
def replaceChar (c : Char) (r : List Char) (l : List Char) : List Char :=
  l.flatMap (fun a => if a = c then r else [a])

/-- Model of `escapeHtml` from `src/debug.ts` lines 13–20: five sequential global
single-character replacements, in source order (`&` first). -/
def escapeHtml (l : List Char) : List Char :=
  replaceChar '\'' ("&#039;".data)
    (replaceChar '"' ("&quot;".data)
      (replaceChar '>' ("&gt;".data)
        (replaceChar '<' ("&lt;".data)
          (replaceChar '&' ("&amp;".data) l))))

/-- Variant of `escapeHtml` on `String`s. -/
def escapeHtmlS (s : String) : String :=
  ⟨escapeHtml s.data⟩

-- ### KV store model

/-- The KV namespace: an association list of key/value entries. -/
abbrev Store := List (String × String)

/-- Model of `authStore.get(key, {type: "text"})`: first entry with the given key. -/
def kvGet (s : Store) (k : String) : Option String :=
  (s.find? (fun e => e.fst == k)).map Prod.snd

/-- Model of `authStore.delete(key)`: removes every entry with the given key. -/
def kvDelete (s : Store) (k : String) : Store :=
  s.filter (fun e => !(e.fst == k))

/-- Result of `authStore.list(...)` (the fields of `KVNamespaceListResult`
used by the code). The opaque continuation token is modelled as the list of
key names already returned. -/
structure KVListResult where
  keys : List String
  list_complete : Bool
  cursor : Option (List String)
deriving Repr, DecidableEq

/-- The key names a cursor token says were already returned. -/
def seenOf : Option (List String) → List String
  | none => []
  | some l => l

/-- Whether a key is returned by a `list` call: it carries the requested
prefix and was not already returned before the cursor position. -/
def kvMatches (pre : String) (seen : List String) (k : String) : Bool :=
  strHasPfx pre k && !(seen.contains k)

/-- Model of `authStore.list({prefix, cursor, limit})`: the next (at most) `limit`
matching keys; `list_complete` is set when no further matching keys remain
beyond the returned page. -/
def kvList (s : Store) (pre : String) (cur : Option (List String)) (limit : Nat) :
    KVListResult :=
  let matching := (s.map Prod.fst).filter (kvMatches pre (seenOf cur))
  { keys := matching.take limit
    list_complete := decide (matching.length ≤ limit)
    cursor := some (seenOf cur ++ matching.take limit) }

/-- A batch of `authStore.delete` calls over the listed key names
(`Promise.all` fan-out, folded sequentially): a delete whose key the failure
oracle rejects throws and leaves the store unchanged. -/
def deleteKeysStore (fails : String → Bool) : Store → List String → Store
  | s, [] => s
  | s, k :: ks => deleteKeysStore fails (if fails k then s else kvDelete s k) ks

-- ### Listing route: GET /internal/list-auth-users

/-- JS truthiness-and-equality test of `src/debug.ts` line 43:
`expectedChallenge && userChallenge === expectedChallenge`, where
`expectedChallenge` is the saved `currentDebugChallenge` (null or a string;
the empty string is falsy) and `userChallenge` the optional query value. -/
def challengePass (pending userChallenge : Option String) : Bool :=
  match pending with
  | none => false
  | some s => !s.isEmpty && userChallenge == some s

/-- The three observable pieces of `showChallengePage` (`src/debug.ts` lines
27–37): the console side channel carrying the code, the constant HTML body
(the template interpolates nothing), and the 401 status. -/
structure ChallengeView where
  consoleLog : String
  body : String
  httpStatus : Nat
deriving Repr, DecidableEq

/-- Model of `showChallengePage(expectedCode)` from `src/debug.ts` lines 27–37. -/
def showChallengePage (expectedCode : String) : ChallengeView :=
  { consoleLog :=
      "[OpenAuth] DEBUG CHALLENGE: To access admin UI, use challenge code: "
        ++ expectedCode
    body := "
            <!DOCTYPE html><html><head><title>Challenge Required</title></head>
            <body><h1>Admin UI Challenge</h1>
            <p>Please check the worker console logs for the required challenge code.</p>
            <p>Then, add <code>?challenge=&lt;code&gt;</code> to the URL and refresh.</p>
            <p>(Expected code was just logged to console)</p>
            </body></html>
        "
    httpStatus := 401 }

/-- Email extraction from a single listed key (`src/debug.ts` lines 71–80):
`indexOf(DELIMITER, startIndex)` followed by `substring(startIndex, endIndex)`,
returning `null` when the delimiter does not occur after the prefix. -/
def extractOne (k : String) : Option String :=
  let rest := k.data.drop EMAIL_PFX.length
  let email := rest.takeWhile (fun c => c != DELIM)
  if email.length = rest.length then none else some ⟨email⟩

/-- The listing's email pipeline (`src/debug.ts` lines 67–81): filter the
page to keys with the email prefix, map each to its extracted email or
`null`, and drop the `null`s. -/
def extractEmails (keys : List String) : List String :=
  ((keys.filter (fun k => strHasPfx EMAIL_PFX k)).map extractOne).reduceOption

/-- One `<tr>` of the user table (`src/debug.ts` lines 158–172): every
occurrence of the email in the markup goes through `escapeHtml`. -/
def renderUserRow (email : String) : String :=
  "
                      <tr>
                          <td>" ++ escapeHtmlS email ++ "</td>
                          <td>
                              <form method=\"POST\" action=\"/internal/delete-user-action\" style=\"display:inline;\" onsubmit=\"return confirm('DELETE AUTH DATA for " ++ escapeHtmlS email ++ "? This includes password hash and refresh tokens.');\">
                                  <input type=\"hidden\" name=\"email\" value=\"" ++ escapeHtmlS email ++ "\">
                                  <button type=\"submit\">Delete Auth Data</button>
                              </form>
                              <form method=\"POST\" action=\"/internal/reset-password-action\" style=\"display:inline;\" onsubmit=\"alert('ACTION NOT IMPLEMENTED. Trigger password reset for " ++ escapeHtmlS email ++ "?'); return false;\">
                                   <input type=\"hidden\" name=\"email\" value=\"" ++ escapeHtmlS email ++ "\">
                                   <button type=\"submit\" disabled>Trigger Password Reset</button>
                              </form>
                          </td>
                      </tr>
                      "

/-- Model of `emails.map(email => ...).join('')` — the rendered identity list. -/
def userTableBody (emails : List String) : String :=
  String.join (emails.map renderUserRow)

/-- Constant `keyLimit` from `src/debug.ts` line 56. -/
def keyLimit : Nat := 1000

/-- The listing route's response: the 401 challenge page, or the 200 admin
page whose identity list is generated from `emails`. -/
inductive ListingResponse where
  | challenge (view : ChallengeView)
  | page (emails : List String) (rowsHtml : String)
deriving Repr, DecidableEq

/-- HTTP status of a listing response (`c.html(..., 401)` vs plain 200). -/
def ListingResponse.httpStatus : ListingResponse → Nat
  | .challenge v => v.httpStatus
  | .page _ _ => 200

/-- Outcome of one `GET /internal/list-auth-users` request: the new value of
`currentDebugChallenge` and the response. -/
structure ListOutcome where
  pending : Option String
  response : ListingResponse
deriving Repr, DecidableEq

/-- The `GET /internal/list-auth-users` handler (`src/debug.ts` lines
23–197). `pending` is `currentDebugChallenge` on entry, `userChallenge` the
`challenge` query parameter, `fresh` the random token the handler would
draw, `s` the store. On a passed challenge the slot is cleared and the page
rendered from a single page of the email key family; otherwise a new
challenge is minted and stored and the 401 page returned. -/
def listAuthUsers (pending userChallenge : Option String) (fresh : String)
    (s : Store) : ListOutcome :=
  if challengePass pending userChallenge then
    let keys := (kvList s EMAIL_PFX none keyLimit).keys
    let emails := extractEmails keys
    { pending := none, response := .page emails (userTableBody emails) }
  else
    { pending := some fresh, response := .challenge (showChallengePage fresh) }

-- ### Delete-one route: POST /internal/delete-user-action

/-- Outcome of one `POST /internal/delete-user-action` request (with a valid
form `email`): the store after cleanup, the `status` query value of the 303
redirect, and the new `currentDebugChallenge`. -/
structure DeleteResult where
  store : Store
  status : String
  pending : Option String
deriving Repr, DecidableEq

/-- The `POST /internal/delete-user-action` handler (`src/debug.ts` lines
200–277), for a request whose form data carries the string `email` (the
400/500 guard paths are not modelled).  `defaultLimit` is the page size the
store applies to the `list` call made without an explicit `limit`;
`getFails` is true when the subject-mapping read throws (caught at lines
240–242).  The handler reads the subject mapping, deletes the password-hash
and mapping keys, then — only if a JS-truthy subject id was obtained (not
null and not the empty string, per the source's `if (subjectId)`) — lists a
single page of that subject's refresh-token keys and deletes them.  The pending
challenge is unconditionally cleared (line 275) and the status is
`deleted`. Store deletes themselves are modelled as succeeding (a throwing
delete would fall through to the outer catch and yield status `error`,
a path outside the claims). -/
def deleteUserAction (defaultLimit : Nat) (getFails : Bool) (s : Store)
    (email : String) : DeleteResult :=
  let pwdHashKey := EMAIL_PFX ++ email ++ "\x1fpassword"
  let subjectMapKey := EMAIL_PFX ++ email ++ "\x1fsubject"
  let subjectId := if getFails then none else kvGet s subjectMapKey
  let s1 := kvDelete s pwdHashKey
  let s2 := kvDelete s1 subjectMapKey
  match subjectId with
  | some sid =>
    -- `if (subjectId)` in the source is JS truthiness: the empty string is
    -- falsy, so a mapping value of "" also skips the refresh cleanup.
    if sid.isEmpty then { store := s2, status := "deleted", pending := none }
    else
      let refreshTokenPrefixForUser := "oauth:refresh" ++ "\x1f" ++ sid ++ "\x1f"
      let listResult := kvList s2 refreshTokenPrefixForUser none defaultLimit
      let s3 := deleteKeysStore (fun _ => false) s2 listResult.keys
      { store := s3, status := "deleted", pending := none }
  | none => { store := s2, status := "deleted", pending := none }

-- ### Clear-all route: POST /internal/clear-all-auth-data

/-- State of the clear-all scan when the per-prefix do/while loop stops:
the store, the running `totalAttemptedDeletions` and `totalErrors`
counters, whether a `list` call threw (escaping to the outer catch), and
whether the loop stopped because the store reported completion. -/
structure LoopResult where
  store : Store
  attempted : Nat
  errors : Nat
  fatal : Bool
  finished : Bool
deriving Repr, DecidableEq

/-- The do/while loop of `src/debug.ts` lines 305–329 for one prefix: list a
page, count and delete its keys (each delete's failure caught and counted,
line 312–316), then continue with the returned cursor until `list_complete`.
`fuel` bounds the recursion; every caller passes enough fuel for the loop to
stop only via `list_complete` (see `clearPrefixLoop_spec`). -/
def clearPrefixLoop (fails : String → Bool)
    (listFatal : Store → Option (List String) → Bool) (pre : String)
    (limit : Nat) :
    Nat → Store → Option (List String) → Nat → Nat → LoopResult
  | 0, s, _, att, err =>
    { store := s, attempted := att, errors := err, fatal := false, finished := false }
  | Nat.succ fuel, s, cur, att, err =>
    if listFatal s cur then
      { store := s, attempted := att, errors := err, fatal := true, finished := false }
    else
      let res := kvList s pre cur limit
      let s' := deleteKeysStore fails s res.keys
      let att' := att + res.keys.length
      let err' := err + res.keys.countP fails
      if res.list_complete then
        { store := s', attempted := att', errors := err', fatal := false, finished := true }
      else
        clearPrefixLoop fails listFatal pre limit fuel s' res.cursor att' err'

/-- Constant `prefixes_to_delete` from `src/debug.ts` lines 293–296. -/
def prefixes_to_delete : List String := [EMAIL_PFX, REFRESH_PFX]

/-- The `for (const prefix of prefixes_to_delete)` loop (`src/debug.ts`
lines 302–330): run the paging loop for each prefix in order, threading the
store and both counters; a fatal `list` exception aborts the remaining
prefixes (it escapes to the handler's catch). -/
def runClearPrefixes (fails : String → Bool)
    (listFatal : Store → Option (List String) → Bool) (limit : Nat) :
    Store → List String → Nat → Nat → LoopResult
  | s, [], att, err =>
    { store := s, attempted := att, errors := err, fatal := false, finished := true }
  | s, pre :: rest, att, err =>
    let r := clearPrefixLoop fails listFatal pre limit (s.length + 1) s none att err
    if r.fatal then r
    else runClearPrefixes fails listFatal limit r.store rest r.attempted r.errors

/-- Outcome of one `POST /internal/clear-all-auth-data` request: the store,
the two counters, the `overallStatus` string driving the rendered banner,
whether the scan threw fatally, the unchanged pending challenge, and the
emails of the re-rendered page. -/
structure ClearAllResult where
  store : Store
  attempted : Nat
  errors : Nat
  overallStatus : String
  fatal : Bool
  pending : Option String
  emailsAfter : List String
deriving Repr, DecidableEq

/-- The `POST /internal/clear-all-auth-data` handler (`src/debug.ts` lines
280–475): scan and delete both key families with `limit: 1000`, derive
`overallStatus` (`'success'` unless errors occurred; `'partial'` vs
`'error'` by whether any deletion was attempted; a fatal scan exception
forces `'error'`), then re-list the email family for the re-rendered page.
The handler never reads or writes `currentDebugChallenge`, so the pending
challenge is returned unchanged. -/
def clearAllAuthData (fails : String → Bool)
    (listFatal : Store → Option (List String) → Bool)
    (pending : Option String) (s : Store) : ClearAllResult :=
  let r := runClearPrefixes fails listFatal 1000 s prefixes_to_delete 0 0
  let overallStatus :=
    if r.fatal then "error"
    else if r.errors > 0 then (if r.attempted > 0 then "partial" else "error")
    else "success"
  { store := r.store, attempted := r.attempted, errors := r.errors,
    overallStatus := overallStatus, fatal := r.fatal, pending := pending,
    emailsAfter := extractEmails ((kvList r.store EMAIL_PFX none keyLimit).keys) }

-- ### Character-level analysis of escapeHtml (for the injection claim)

/-- The per-character effect of the five `escapeHtml` passes combined. -/
def escChar (a : Char) : List Char :=
  if a = '&' then "&amp;".data
  else if a = '<' then "&lt;".data
  else if a = '>' then "&gt;".data
  else if a = '"' then "&quot;".data
  else if a = '\'' then "&#039;".data
  else [a]

/-- If one of the five entity tails (`amp;`, `lt;`, `gt;`, `quot;`,
`#039;`) starts the list, return what follows it. -/
def findEntityTail : List Char → Option (List Char)
  | 'a' :: 'm' :: 'p' :: ';' :: r => some r
  | 'l' :: 't' :: ';' :: r => some r
  | 'g' :: 't' :: ';' :: r => some r
  | 'q' :: 'u' :: 'o' :: 't' :: ';' :: r => some r
  | '#' :: '0' :: '3' :: '9' :: ';' :: r => some r
  | _ => none

/-- Scanner for the ampersand discipline: every `&` in the list is
immediately followed by one of the five entity tails, i.e. every `&` is the
first character of one of the five entities. -/
def ampOk : List Char → Bool
  | [] => true
  | c :: rest => ((c != '&') || (findEntityTail rest).isSome) && ampOk rest

/-- A raw character that must never survive `escapeHtml`. -/
def rawMarkup (c : Char) : Bool :=
  c == '<' || c == '>' || c == '"' || c == '\''

theorem replaceChar_append (c : Char) (r x y : List Char) :
    replaceChar c r (x ++ y) = replaceChar c r x ++ replaceChar c r y := by
  simp [replaceChar]

theorem escapeHtml_append (x y : List Char) :
    escapeHtml (x ++ y) = escapeHtml x ++ escapeHtml y := by
  simp [escapeHtml, replaceChar_append]

theorem escapeHtml_singleton (a : Char) : escapeHtml [a] = escChar a := by
  by_cases h1 : a = '&'
  · subst h1; rfl
  by_cases h2 : a = '<'
  · subst h2; rfl
  by_cases h3 : a = '>'
  · subst h3; rfl
  by_cases h4 : a = '"'
  · subst h4; rfl
  by_cases h5 : a = '\''
  · subst h5; rfl
  simp [escapeHtml, replaceChar, escChar, h1, h2, h3, h4, h5]

theorem escapeHtml_eq_flatMap (l : List Char) :
    escapeHtml l = l.flatMap escChar := by
  induction l with
  | nil => rfl
  | cons a t ih =>
    calc escapeHtml (a :: t) = escapeHtml ([a] ++ t) := rfl
      _ = escapeHtml [a] ++ escapeHtml t := escapeHtml_append _ _
      _ = escChar a ++ t.flatMap escChar := by rw [escapeHtml_singleton, ih]
      _ = (a :: t).flatMap escChar := (List.flatMap_cons ..).symm

theorem escChar_all_safe (a : Char) :
    (escChar a).all (fun c => !(rawMarkup c)) = true := by
  by_cases h1 : a = '&'
  · subst h1; rfl
  by_cases h2 : a = '<'
  · subst h2; rfl
  by_cases h3 : a = '>'
  · subst h3; rfl
  by_cases h4 : a = '"'
  · subst h4; rfl
  by_cases h5 : a = '\''
  · subst h5; rfl
  simp [escChar, h1, h2, h3, h4, h5, rawMarkup]

theorem ampOk_cons (c : Char) (rest : List Char) :
    ampOk (c :: rest) =
      (((c != '&') || (findEntityTail rest).isSome) && ampOk rest) := rfl

theorem ampOk_escChar_append (a : Char) (m : List Char) :
    ampOk (escChar a ++ m) = ampOk m := by
  by_cases h1 : a = '&'
  · subst h1; rfl
  by_cases h2 : a = '<'
  · subst h2; rfl
  by_cases h3 : a = '>'
  · subst h3; rfl
  by_cases h4 : a = '"'
  · subst h4; rfl
  by_cases h5 : a = '\''
  · subst h5; rfl
  have he : escChar a ++ m = a :: m := by
    simp [escChar, h1, h2, h3, h4, h5]
  rw [he, ampOk_cons]
  have hb : (a != '&') = true := by simp [h1]
  rw [hb]
  rfl

theorem ampOk_escapeHtml (l : List Char) : ampOk (escapeHtml l) = true := by
  rw [escapeHtml_eq_flatMap]
  induction l with
  | nil => rfl
  | cons a t ih =>
    rw [List.flatMap_cons, ampOk_escChar_append, ih]

-- ### Store-model lemmas

theorem deleteKeysStore_eq (fails : String → Bool) :
    ∀ (ks : List String) (s : Store),
      deleteKeysStore fails s ks =
        s.filter (fun e => !(ks.contains e.fst && !(fails e.fst))) := by
  intro ks
  induction ks with
  | nil =>
    intro s
    show s = s.filter _
    rw [List.filter_congr (q := fun _ => true) (by intro e _; simp), List.filter_true]
  | cons k ks ih =>
    intro s
    show deleteKeysStore fails (if fails k then s else kvDelete s k) ks = _
    by_cases hf : fails k
    · rw [if_pos hf, ih]
      refine List.filter_congr ?_
      intro e _
      by_cases he : e.fst = k
      · simp [he, hf]
      · simp [he]
    · rw [if_neg hf, kvDelete, ih, List.filter_filter]
      refine List.filter_congr ?_
      intro e _
      by_cases he : e.fst = k
      · simp [he, hf]
      · simp [he]

theorem map_fst_filter (Q : String → Bool) (s : Store) :
    (s.filter (fun e => Q e.fst)).map Prod.fst = (s.map Prod.fst).filter Q := by
  rw [List.filter_map]
  rfl

theorem filter_not_mem_take {α : Type} [DecidableEq α] [BEq α] [LawfulBEq α] :
    ∀ (l : List α) (n : Nat), l.Nodup →
      l.filter (fun x => !((l.take n).contains x)) = l.drop n := by
  intro l
  induction l with
  | nil => intro n _; simp
  | cons a t ih =>
    intro n hnd
    match n with
    | 0 => simp
    | Nat.succ m =>
      have ha : a ∉ t := (List.nodup_cons.mp hnd).1
      have ht : t.Nodup := (List.nodup_cons.mp hnd).2
      show (a :: t).filter (fun x => !(((a :: t.take m)).contains x)) = t.drop m
      rw [List.filter_cons]
      have hfa : (!((a :: t.take m).contains a)) = false := by simp
      rw [hfa]
      simp only [Bool.false_eq_true, if_false]
      have : t.filter (fun x => !((a :: t.take m).contains x)) =
          t.filter (fun x => !((t.take m).contains x)) := by
        refine List.filter_congr ?_
        intro x hx
        have hxa : ¬(x == a) = true := by
          intro hb
          exact ha (eq_of_beq hb ▸ hx)
        simp only [List.contains_cons]
        simp only [List.elem_eq_mem] at hxa ⊢
        simp only [Bool.or_eq_true] at *
        by_cases hxm : x ∈ t.take m
        · simp [hxm]
        · simp [hxm, show ¬(x = a) from fun hh => ha (hh ▸ hx)]
      rw [this, ih m ht]

/-- The matching keys a scan positioned at cursor `seen` has yet to return. -/
def matchingKeys (s : Store) (pre : String) (seen : List String) : List String :=
  (s.map Prod.fst).filter (kvMatches pre seen)

theorem matchingKeys_after_page (fails : String → Bool) (pre : String)
    (limit : Nat) (s : Store) (seen : List String)
    (hnd : (s.map Prod.fst).Nodup) :
    matchingKeys
        (deleteKeysStore fails s ((matchingKeys s pre seen).take limit))
        pre (seen ++ (matchingKeys s pre seen).take limit)
      = (matchingKeys s pre seen).drop limit := by
  have hMnd : (matchingKeys s pre seen).Nodup := hnd.filter _
  rw [deleteKeysStore_eq]
  show ((s.filter _).map Prod.fst).filter _ = _
  rw [map_fst_filter
        (fun x => !((List.take limit (matchingKeys s pre seen)).contains x
          && !fails x)) s,
    List.filter_filter,
    ← filter_not_mem_take (matchingKeys s pre seen) limit hMnd]
  show _ = ((s.map Prod.fst).filter _).filter _
  rw [List.filter_filter]
  refine List.filter_congr ?_
  intro x _
  by_cases hp : x ∈ (matchingKeys s pre seen).take limit
  · have hxM : x ∈ matchingKeys s pre seen := List.mem_of_mem_take hp
    have hkv : kvMatches pre seen x = true := (List.mem_filter.mp hxM).2
    have hkv' := hkv
    unfold kvMatches at hkv'
    rw [Bool.and_eq_true] at hkv'
    have ha1 : strHasPfx pre x = true := hkv'.1
    have ha2 : seen.contains x = false := by
      have h2 := hkv'.2
      simp at h2; simp [h2]
    simp [kvMatches, hp, ha1, ha2]
  · simp [kvMatches, hp]

theorem clearPrefixLoop_spec (fails : String → Bool) (pre : String)
    (limit : Nat) (hl : 0 < limit) :
    ∀ (fuel : Nat) (s : Store) (cur : Option (List String)) (att err : Nat),
      (s.map Prod.fst).Nodup →
      (matchingKeys s pre (seenOf cur)).length < fuel →
      clearPrefixLoop fails (fun _ _ => false) pre limit fuel s cur att err =
        { store := s.filter
            (fun e => !(kvMatches pre (seenOf cur) e.fst && !(fails e.fst))),
          attempted := att + (matchingKeys s pre (seenOf cur)).length,
          errors := err + (matchingKeys s pre (seenOf cur)).countP fails,
          fatal := false, finished := true } := by
  intro fuel
  induction fuel with
  | zero => intro s cur att err _ h; exact absurd h (Nat.not_lt_zero _)
  | succ fuel ih =>
    intro s cur att err hnd hfuel
    by_cases hc : (matchingKeys s pre (seenOf cur)).length ≤ limit
    · have hc' : ((s.map Prod.fst).filter (kvMatches pre (seenOf cur))).length
          ≤ limit := hc
      have htake : (matchingKeys s pre (seenOf cur)).take limit
          = matchingKeys s pre (seenOf cur) := List.take_of_length_le hc
      show (if false = true then _ else _) = _
      rw [if_neg (by simp)]
      show (if (kvList s pre cur limit).list_complete = true then _ else _) = _
      rw [if_pos (by simp [kvList]; exact hc')]
      have hkeys : (kvList s pre cur limit).keys = matchingKeys s pre (seenOf cur) := by
        show (matchingKeys s pre (seenOf cur)).take limit = _
        exact htake
      rw [hkeys, deleteKeysStore_eq]
      refine congrArg (fun st => LoopResult.mk st _ _ false true) ?_
      refine List.filter_congr ?_
      intro e he
      by_cases hkv : kvMatches pre (seenOf cur) e.fst = true
      · have : e.fst ∈ matchingKeys s pre (seenOf cur) :=
          List.mem_filter.mpr ⟨List.mem_map_of_mem _ he, hkv⟩
        simp [this, hkv]
      · have hne : e.fst ∉ matchingKeys s pre (seenOf cur) := by
          intro hm; exact hkv (List.mem_filter.mp hm).2
        simp at hkv
        simp [hne, hkv]
    · push_neg at hc
      have hc' : limit < ((s.map Prod.fst).filter (kvMatches pre (seenOf cur))).length :=
        hc
      show (if false = true then _ else _) = _
      rw [if_neg (by simp)]
      show (if (kvList s pre cur limit).list_complete = true then _ else _) = _
      rw [if_neg (by simp [kvList]; omega)]
      have hkeys : (kvList s pre cur limit).keys
          = (matchingKeys s pre (seenOf cur)).take limit := rfl
      have hcurs : (kvList s pre cur limit).cursor
          = some (seenOf cur ++ (matchingKeys s pre (seenOf cur)).take limit) := rfl
      have hnd' : ((deleteKeysStore fails s
            ((matchingKeys s pre (seenOf cur)).take limit)).map Prod.fst).Nodup := by
        rw [deleteKeysStore_eq,
          map_fst_filter (fun x =>
            !((List.take limit (matchingKeys s pre (seenOf cur))).contains x
              && !fails x)) s]
        exact hnd.filter _
      have hmk : matchingKeys
            (deleteKeysStore fails s ((matchingKeys s pre (seenOf cur)).take limit))
            pre (seenOf cur ++ (matchingKeys s pre (seenOf cur)).take limit)
          = (matchingKeys s pre (seenOf cur)).drop limit :=
        matchingKeys_after_page fails pre limit s (seenOf cur) hnd
      rw [hkeys, hcurs]
      have hfuel' : (matchingKeys
            (deleteKeysStore fails s ((matchingKeys s pre (seenOf cur)).take limit))
            pre (seenOf (some (seenOf cur ++ (matchingKeys s pre (seenOf cur)).take limit)))).length
          < fuel := by
        show (matchingKeys _ pre (seenOf cur ++ (matchingKeys s pre (seenOf cur)).take limit)).length < fuel
        rw [hmk]
        rw [List.length_drop]
        omega
      rw [ih _ _ _ _ hnd' hfuel']
      show LoopResult.mk _ _ _ false true = LoopResult.mk _ _ _ false true
      have hmk' : matchingKeys
            (deleteKeysStore fails s ((matchingKeys s pre (seenOf cur)).take limit))
            pre (seenOf (some (seenOf cur ++ (matchingKeys s pre (seenOf cur)).take limit)))
          = (matchingKeys s pre (seenOf cur)).drop limit := hmk
      rw [hmk']
      have hatt : att + ((matchingKeys s pre (seenOf cur)).take limit).length
            + ((matchingKeys s pre (seenOf cur)).drop limit).length
          = att + (matchingKeys s pre (seenOf cur)).length := by
        have := congrArg List.length
          (List.take_append_drop limit (matchingKeys s pre (seenOf cur)))
        rw [List.length_append] at this
        omega
      have herr : err + ((matchingKeys s pre (seenOf cur)).take limit).countP fails
            + ((matchingKeys s pre (seenOf cur)).drop limit).countP fails
          = err + (matchingKeys s pre (seenOf cur)).countP fails := by
        have := congrArg (List.countP fails)
          (List.take_append_drop limit (matchingKeys s pre (seenOf cur)))
        rw [List.countP_append] at this
        omega
      rw [hatt, herr]
      have hstore : (deleteKeysStore fails s
            ((matchingKeys s pre (seenOf cur)).take limit)).filter
            (fun e => !(kvMatches pre
              (seenOf (some (seenOf cur ++ (matchingKeys s pre (seenOf cur)).take limit)))
              e.fst && !(fails e.fst)))
          = s.filter (fun e => !(kvMatches pre (seenOf cur) e.fst && !(fails e.fst))) := by
        rw [deleteKeysStore_eq, List.filter_filter]
        refine List.filter_congr ?_
        intro e _
        show (!(kvMatches pre (seenOf cur ++ (matchingKeys s pre (seenOf cur)).take limit) e.fst && !(fails e.fst))
            && !((List.take limit (matchingKeys s pre (seenOf cur))).contains e.fst && !(fails e.fst)))
          = !(kvMatches pre (seenOf cur) e.fst && !(fails e.fst))
        by_cases hf : fails e.fst = true
        · simp [hf]
        · simp only [Bool.not_eq_true] at hf
          by_cases hp : e.fst ∈ (matchingKeys s pre (seenOf cur)).take limit
          · have hxM : e.fst ∈ matchingKeys s pre (seenOf cur) := List.mem_of_mem_take hp
            have hkv : kvMatches pre (seenOf cur) e.fst = true :=
              (List.mem_filter.mp hxM).2
            unfold kvMatches at hkv ⊢
            rw [Bool.and_eq_true] at hkv
            have ha1 : strHasPfx pre e.fst = true := hkv.1
            have ha2 : (seenOf cur).contains e.fst = false := by
              have h2 := hkv.2; simp at h2; simp [h2]
            have ha2' : e.fst ∉ seenOf cur := by simpa using ha2
            simp [hf, hp, ha1, ha2, ha2']
          · unfold kvMatches
            simp [hf, hp]
      rw [hstore]

theorem clearPrefixLoop_err_le (fails : String → Bool)
    (listFatal : Store → Option (List String) → Bool) (pre : String)
    (limit : Nat) :
    ∀ (fuel : Nat) (s : Store) (cur : Option (List String)) (att err : Nat),
      (clearPrefixLoop fails listFatal pre limit fuel s cur att err).errors + att ≤
      (clearPrefixLoop fails listFatal pre limit fuel s cur att err).attempted + err := by
  intro fuel
  induction fuel with
  | zero => intro s cur att err; simp [clearPrefixLoop]; omega
  | succ fuel ih =>
    intro s cur att err
    simp only [clearPrefixLoop]
    by_cases hlf : listFatal s cur = true
    · rw [if_pos hlf]; simp; omega
    · rw [if_neg hlf]
      have hcp : ((kvList s pre cur limit).keys).countP fails
          ≤ ((kvList s pre cur limit).keys).length := List.countP_le_length _
      by_cases hc : (kvList s pre cur limit).list_complete = true
      · rw [if_pos hc]; simp; omega
      · rw [if_neg hc]
        have := ih (deleteKeysStore fails s (kvList s pre cur limit).keys)
          ((kvList s pre cur limit).cursor)
          (att + ((kvList s pre cur limit).keys).length)
          (err + ((kvList s pre cur limit).keys).countP fails)
        omega

theorem runClearPrefixes_err_le (fails : String → Bool)
    (listFatal : Store → Option (List String) → Bool) (limit : Nat) :
    ∀ (ps : List String) (s : Store) (att err : Nat),
      (runClearPrefixes fails listFatal limit s ps att err).errors + att ≤
      (runClearPrefixes fails listFatal limit s ps att err).attempted + err := by
  intro ps
  induction ps with
  | nil => intro s att err; simp [runClearPrefixes]; omega
  | cons pre rest ih =>
    intro s att err
    simp only [runClearPrefixes]
    have h1 := clearPrefixLoop_err_le fails listFatal pre limit (s.length + 1) s none att err
    by_cases hf : (clearPrefixLoop fails listFatal pre limit (s.length + 1) s none att err).fatal = true
    · rw [if_pos hf]; exact h1
    · rw [if_neg hf]
      have h2 := ih (clearPrefixLoop fails listFatal pre limit (s.length + 1) s none att err).store
        (clearPrefixLoop fails listFatal pre limit (s.length + 1) s none att err).attempted
        (clearPrefixLoop fails listFatal pre limit (s.length + 1) s none att err).errors
      omega

theorem email_refresh_no_overlap (k : String) :
    strHasPfx EMAIL_PFX k = true → strHasPfx REFRESH_PFX k = false := by
  intro h
  unfold strHasPfx EMAIL_PFX at h
  unfold strHasPfx REFRESH_PFX
  rw [List.isPrefixOf_iff_prefix] at h
  rw [show ("email\x1f").data = 'e' :: "mail\x1f".data from rfl] at h
  cases hk : k.data with
  | nil => rw [hk] at h; exact absurd h (by simp)
  | cons c cs =>
    rw [hk] at h
    have hce : c = 'e' := (List.cons_prefix_cons.mp h).1.symm
    rw [show ("oauth:refresh\x1f").data = 'o' :: "auth:refresh\x1f".data from rfl]
    rw [Bool.eq_false_iff]
    intro hb
    rw [List.isPrefixOf_iff_prefix, List.cons_prefix_cons] at hb
    rw [hce] at hb
    exact absurd hb.1 (by decide)

theorem matchingKeys_nil_eq (s : Store) (pre : String) :
    matchingKeys s pre [] = (s.map Prod.fst).filter (strHasPfx pre) :=
  List.filter_congr (fun x _ => by simp [kvMatches])

theorem matchingKeys_refresh_after_email (fails : String → Bool) (s : Store) :
    matchingKeys
        (s.filter (fun e => !(kvMatches EMAIL_PFX [] e.fst && !(fails e.fst))))
        REFRESH_PFX []
      = (s.map Prod.fst).filter (strHasPfx REFRESH_PFX) := by
  unfold matchingKeys
  rw [map_fst_filter (fun x => !(kvMatches EMAIL_PFX [] x && !(fails x))) s,
    List.filter_filter]
  refine List.filter_congr ?_
  intro x _
  by_cases hR : strHasPfx REFRESH_PFX x = true
  · have hE : strHasPfx EMAIL_PFX x = false := by
      by_cases hE' : strHasPfx EMAIL_PFX x = true
      · exact absurd (email_refresh_no_overlap x hE') (by simp [hR])
      · simpa using hE'
    simp [kvMatches, hR, hE]
  · simp at hR
    simp [kvMatches, hR]

theorem runClearPrefixes_both (fails : String → Bool) (s : Store)
    (hnd : (s.map Prod.fst).Nodup) :
    runClearPrefixes fails (fun _ _ => false) 1000 s prefixes_to_delete 0 0 =
      { store := (s.filter
            (fun e => !(kvMatches EMAIL_PFX [] e.fst && !(fails e.fst)))).filter
            (fun e => !(kvMatches REFRESH_PFX [] e.fst && !(fails e.fst))),
        attempted := ((s.map Prod.fst).filter (strHasPfx EMAIL_PFX)).length
          + ((s.map Prod.fst).filter (strHasPfx REFRESH_PFX)).length,
        errors := ((s.map Prod.fst).filter (strHasPfx EMAIL_PFX)).countP fails
          + ((s.map Prod.fst).filter (strHasPfx REFRESH_PFX)).countP fails,
        fatal := false, finished := true } := by
  have hbound : (matchingKeys s EMAIL_PFX (seenOf none)).length < s.length + 1 := by
    have h1 : (matchingKeys s EMAIL_PFX (seenOf none)).length
        ≤ (s.map Prod.fst).length := List.length_filter_le _ _
    rw [List.length_map] at h1
    omega
  have h1 := clearPrefixLoop_spec fails EMAIL_PFX 1000 (by norm_num)
    (s.length + 1) s none 0 0 hnd hbound
  have hnd1 : ((s.filter
      (fun e => !(kvMatches EMAIL_PFX (seenOf none) e.fst && !(fails e.fst)))).map
        Prod.fst).Nodup := by
    rw [map_fst_filter
      (fun x => !(kvMatches EMAIL_PFX (seenOf none) x && !(fails x))) s]
    exact hnd.filter _
  have hbound1 : (matchingKeys
      (s.filter (fun e => !(kvMatches EMAIL_PFX (seenOf none) e.fst && !(fails e.fst))))
      REFRESH_PFX (seenOf none)).length
      < (s.filter (fun e => !(kvMatches EMAIL_PFX (seenOf none) e.fst && !(fails e.fst)))).length + 1 := by
    have h2 : (matchingKeys
        (s.filter (fun e => !(kvMatches EMAIL_PFX (seenOf none) e.fst && !(fails e.fst))))
        REFRESH_PFX (seenOf none)).length
        ≤ ((s.filter (fun e => !(kvMatches EMAIL_PFX (seenOf none) e.fst && !(fails e.fst)))).map
          Prod.fst).length := List.length_filter_le _ _
    rw [List.length_map] at h2
    omega
  have h2 := clearPrefixLoop_spec fails REFRESH_PFX 1000 (by norm_num)
    ((s.filter (fun e => !(kvMatches EMAIL_PFX (seenOf none) e.fst && !(fails e.fst)))).length + 1)
    (s.filter (fun e => !(kvMatches EMAIL_PFX (seenOf none) e.fst && !(fails e.fst))))
    none (0 + (matchingKeys s EMAIL_PFX (seenOf none)).length)
    (0 + (matchingKeys s EMAIL_PFX (seenOf none)).countP fails) hnd1 hbound1
  show runClearPrefixes fails (fun _ _ => false) 1000 s [EMAIL_PFX, REFRESH_PFX] 0 0 = _
  simp only [runClearPrefixes]
  rw [h1]
  simp only []
  rw [if_neg (by simp)]
  rw [h2]
  rw [if_neg (by simp)]
  have hmE : matchingKeys s EMAIL_PFX (seenOf none)
      = (s.map Prod.fst).filter (strHasPfx EMAIL_PFX) := matchingKeys_nil_eq s EMAIL_PFX
  have hmR : matchingKeys
      (s.filter (fun e => !(kvMatches EMAIL_PFX (seenOf none) e.fst && !(fails e.fst))))
      REFRESH_PFX (seenOf none)
      = (s.map Prod.fst).filter (strHasPfx REFRESH_PFX) :=
    matchingKeys_refresh_after_email fails s
  simp only [LoopResult.mk.injEq]
  refine ⟨rfl, ?_, ?_, trivial, trivial⟩
  · rw [hmE, hmR]; omega
  · rw [hmE, hmR]; omega

theorem escapeHtml_all_safe (l : List Char) :
    (escapeHtml l).all (fun c => !(rawMarkup c)) = true := by
  rw [escapeHtml_eq_flatMap]
  induction l with
  | nil => rfl
  | cons a t ih =>
    rw [List.flatMap_cons, List.all_append, ih, escChar_all_safe]
    rfl

theorem extractOne_no_delim (m : String)
    (hd : (m.data.drop EMAIL_PFX.length).all (fun c => c != DELIM) = true) :
    extractOne m = none := by
  have hta : (m.data.drop EMAIL_PFX.length).takeWhile (fun c => c != DELIM)
      = m.data.drop EMAIL_PFX.length := by
    rw [List.takeWhile_eq_self_iff]
    intro x hx
    exact (List.all_eq_true.mp hd) x hx
  simp only [extractOne]
  rw [hta]
  simp

-- ### Claim theorems

/-- C1, counterexample to the claim as stated: the listing handler's token
generator is `Math.random`, which can repeat.  Two requests with no
`challenge` parameter whose random draws coincide (both `"ABC123"`) each
take the 401 path; the second request mints a pending challenge equal to
the value already issued by the first, so the freshly minted challenge is
not "distinct from any previously issued challenge value". -/
theorem listing_mint_can_repeat_previous :
    (listAuthUsers none none "ABC123" []).pending = some "ABC123" ∧
    (listAuthUsers (listAuthUsers none none "ABC123" []).pending none "ABC123"
      []).response.httpStatus = 401 ∧
    (listAuthUsers (listAuthUsers none none "ABC123" []).pending none "ABC123"
      []).pending = (listAuthUsers none none "ABC123" []).pending := by
  refine ⟨rfl, rfl, rfl⟩

/-- C1 (amended): for every listing request whose `challenge` query value
does not pass against the pending challenge (missing, mismatched, or no
challenge pending), the handler returns the 401 challenge page and replaces
the pending challenge with the freshly drawn random token.  (Distinctness
from previously issued values holds only when the random draw differs from
them; the code does not enforce it.) -/
theorem listing_mismatch_mints_and_401 (pending userChallenge : Option String)
    (fresh : String) (s : Store)
    (h : challengePass pending userChallenge = false) :
    (listAuthUsers pending userChallenge fresh s).response.httpStatus = 401 ∧
    (listAuthUsers pending userChallenge fresh s).pending = some fresh ∧
    (listAuthUsers pending userChallenge fresh s).response
      = .challenge (showChallengePage fresh) := by
  unfold listAuthUsers
  rw [if_neg (by simp [h])]
  exact ⟨rfl, rfl, rfl⟩

/-- C1 witness: a request with no pending challenge and no parameter. -/
theorem listing_mismatch_mints_and_401_witness :
    challengePass none none = false ∧
    ((listAuthUsers none none "FRESH1" []).response.httpStatus = 401 ∧
     (listAuthUsers none none "FRESH1" []).pending = some "FRESH1" ∧
     (listAuthUsers none none "FRESH1" []).response
       = .challenge (showChallengePage "FRESH1")) :=
  ⟨by decide, listing_mismatch_mints_and_401 none none "FRESH1" [] (by decide)⟩

/-- C2: a pending challenge is single-use.  When the presented value passes,
the handler clears the slot (`currentDebugChallenge = null`) before
rendering the 200 listing page; a second listing request presenting the
same value then fails the check, takes the 401 path and mints the fresh
token of that second request. -/
theorem challenge_single_use (pending userChallenge : Option String)
    (fresh1 fresh2 : String) (s1 s2 : Store)
    (h : challengePass pending userChallenge = true) :
    (listAuthUsers pending userChallenge fresh1 s1).pending = none ∧
    (listAuthUsers pending userChallenge fresh1 s1).response.httpStatus = 200 ∧
    (listAuthUsers (listAuthUsers pending userChallenge fresh1 s1).pending
      userChallenge fresh2 s2).response.httpStatus = 401 ∧
    (listAuthUsers (listAuthUsers pending userChallenge fresh1 s1).pending
      userChallenge fresh2 s2).pending = some fresh2 := by
  have h1 : (listAuthUsers pending userChallenge fresh1 s1).pending = none := by
    unfold listAuthUsers
    rw [if_pos (by simp [h])]
  have h2 : (listAuthUsers pending userChallenge fresh1 s1).response.httpStatus
      = 200 := by
    unfold listAuthUsers
    rw [if_pos (by simp [h])]
    rfl
  rw [h1]
  exact ⟨rfl, h2, rfl, rfl⟩

/-- C2 witness: pending challenge `"C1"` presented correctly, then reused. -/
theorem challenge_single_use_witness :
    challengePass (some "C1") (some "C1") = true ∧
    ((listAuthUsers (some "C1") (some "C1") "F1" []).pending = none ∧
     (listAuthUsers (some "C1") (some "C1") "F1" []).response.httpStatus = 200 ∧
     (listAuthUsers (listAuthUsers (some "C1") (some "C1") "F1" []).pending
       (some "C1") "F2" []).response.httpStatus = 401 ∧
     (listAuthUsers (listAuthUsers (some "C1") (some "C1") "F1" []).pending
       (some "C1") "F2" []).pending = some "F2") :=
  ⟨by decide, challenge_single_use (some "C1") (some "C1") "F1" "F2" [] [] (by decide)⟩

/-- C3, counterexample to the claim as stated: the clear-all handler never
touches `currentDebugChallenge` (`src/debug.ts` lines 280–475 contain no
write to it), so a pending challenge survives the bulk clear unchanged
instead of being invalidated: with pending challenge `"ABC123"`, after
`POST /internal/clear-all-auth-data` the pending challenge is still
`"ABC123"`, not empty. -/
theorem clear_all_leaves_challenge :
    (clearAllAuthData (fun _ => false) (fun _ _ => false) (some "ABC123")
      []).pending = some "ABC123" ∧
    (some "ABC123" : Option String) ≠ none :=
  ⟨rfl, by decide⟩

/-- C3 (amended): the single-identity deletion handler unconditionally
clears the pending challenge (`currentDebugChallenge = null`, line 275)
whatever the outcome, while the bulk clear handler leaves the pending
challenge unchanged (it never reads or writes the challenge slot). -/
theorem mutation_challenge_effects (defaultLimit : Nat) (getFails : Bool)
    (s : Store) (email : String) (fails : String → Bool)
    (listFatal : Store → Option (List String) → Bool) (pending : Option String)
    (s2 : Store) :
    (deleteUserAction defaultLimit getFails s email).pending = none ∧
    (clearAllAuthData fails listFatal pending s2).pending = pending := by
  refine ⟨?_, rfl⟩
  cases getFails with
  | true => rfl
  | false =>
    cases hk : kvGet s (EMAIL_PFX ++ email ++ "\x1fsubject") with
    | none => simp [deleteUserAction, hk]
    | some sid =>
      simp only [deleteUserAction, hk]
      repeat' split
      all_goals rfl

/-- C4: a single-identity deletion whose subject-mapping read throws or
finds nothing still deletes the password-hash key and the mapping key,
performs no session/refresh cleanup (the store is exactly the two
`kvDelete`s), does not throw, and redirects with status `deleted` (and a
cleared challenge). -/
theorem delete_missing_mapping (defaultLimit : Nat) (getFails : Bool)
    (s : Store) (email : String)
    (h : getFails = true ∨ kvGet s (EMAIL_PFX ++ email ++ "\x1fsubject") = none) :
    deleteUserAction defaultLimit getFails s email =
      { store := kvDelete (kvDelete s (EMAIL_PFX ++ email ++ "\x1fpassword"))
          (EMAIL_PFX ++ email ++ "\x1fsubject"),
        status := "deleted", pending := none } := by
  have hs : (if getFails then none
      else kvGet s (EMAIL_PFX ++ email ++ "\x1fsubject")) = (none : Option String) := by
    rcases h with h | h
    · rw [h]; simp
    · by_cases hg : getFails
      · simp [hg]
      · simp [hg, h]
  simp [deleteUserAction, hs]

/-- C4 witness: a store holding only the credential key, whose mapping key
is absent. -/
theorem delete_missing_mapping_witness :
    (false = true ∨
      kvGet [("email\x1fa\x1fpassword", "h1")]
        (EMAIL_PFX ++ "a" ++ "\x1fsubject") = none) ∧
    deleteUserAction 5 false [("email\x1fa\x1fpassword", "h1")] "a" =
      { store := kvDelete
          (kvDelete [("email\x1fa\x1fpassword", "h1")]
            (EMAIL_PFX ++ "a" ++ "\x1fpassword"))
          (EMAIL_PFX ++ "a" ++ "\x1fsubject"),
        status := "deleted", pending := none } :=
  ⟨Or.inr (by decide),
   delete_missing_mapping 5 false [("email\x1fa\x1fpassword", "h1")] "a"
     (Or.inr (by decide))⟩

/-- C5, counterexample to the claim as stated: the delete-one handler lists
the subject's refresh keys in a single `list` call with no cursor loop
(`src/debug.ts` line 254), so with a store page size of 1 and N = 2 refresh
keys under the subject prefix, one refresh key survives the deletion. -/
theorem refresh_cleanup_single_page_misses :
    ((([("email\x1fa\x1fpassword", "h1"), ("email\x1fa\x1fsubject", "sub1"),
        ("oauth:refresh\x1fsub1\x1fs1", "t1"),
        ("oauth:refresh\x1fsub1\x1fs2", "t2")] : Store).map
        Prod.fst).filter (strHasPfx "oauth:refresh\x1fsub1\x1f")).length = 2 ∧
    ((deleteUserAction 1 false
        [("email\x1fa\x1fpassword", "h1"), ("email\x1fa\x1fsubject", "sub1"),
         ("oauth:refresh\x1fsub1\x1fs1", "t1"),
         ("oauth:refresh\x1fsub1\x1fs2", "t2")] "a").store.map
        Prod.fst).contains "oauth:refresh\x1fsub1\x1fs2" = true := by
  decide

theorem deleteUserAction_some (defaultLimit : Nat) (s : Store)
    (email sid : String)
    (hsid : kvGet s (EMAIL_PFX ++ email ++ "\x1fsubject") = some sid)
    (hne : sid.isEmpty = false) :
    deleteUserAction defaultLimit false s email =
      { store := deleteKeysStore (fun _ => false)
          (kvDelete (kvDelete s (EMAIL_PFX ++ email ++ "\x1fpassword"))
            (EMAIL_PFX ++ email ++ "\x1fsubject"))
          (kvList (kvDelete (kvDelete s (EMAIL_PFX ++ email ++ "\x1fpassword"))
              (EMAIL_PFX ++ email ++ "\x1fsubject"))
            ("oauth:refresh" ++ "\x1f" ++ sid ++ "\x1f") none defaultLimit).keys,
        status := "deleted", pending := none } := by
  simp [deleteUserAction, hsid, hne]

/-- C5 (amended): single-identity deletion removes the credential and
mapping keys and *the refresh keys returned in the one listed page*: when
the number of the subject's refresh keys (in the store as it stands after
the two direct deletions) is at most the store's page size, all of them are
deleted, the status is `deleted`, and neither the password-hash key nor the
mapping key survives.  For N beyond one page the surplus keys survive (see
the counterexample), since the handler does not paginate this listing. -/
theorem delete_removes_refresh_page (defaultLimit : Nat) (s : Store)
    (email sid : String)
    (hsid : kvGet s (EMAIL_PFX ++ email ++ "\x1fsubject") = some sid)
    (hne : sid.isEmpty = false)
    (hN : (((kvDelete (kvDelete s (EMAIL_PFX ++ email ++ "\x1fpassword"))
          (EMAIL_PFX ++ email ++ "\x1fsubject")).map Prod.fst).filter
          (strHasPfx ("oauth:refresh" ++ "\x1f" ++ sid ++ "\x1f"))).length
        ≤ defaultLimit) :
    (deleteUserAction defaultLimit false s email).status = "deleted" ∧
    ((deleteUserAction defaultLimit false s email).store.map Prod.fst).filter
        (strHasPfx ("oauth:refresh" ++ "\x1f" ++ sid ++ "\x1f")) = [] ∧
    ((deleteUserAction defaultLimit false s email).store.map Prod.fst).contains
        (EMAIL_PFX ++ email ++ "\x1fpassword") = false ∧
    ((deleteUserAction defaultLimit false s email).store.map Prod.fst).contains
        (EMAIL_PFX ++ email ++ "\x1fsubject") = false := by
  rw [deleteUserAction_some defaultLimit s email sid hsid hne]
  set s2 : Store := kvDelete (kvDelete s (EMAIL_PFX ++ email ++ "\x1fpassword"))
    (EMAIL_PFX ++ email ++ "\x1fsubject") with hs2
  set rp : String := "oauth:refresh" ++ "\x1f" ++ sid ++ "\x1f" with hrp
  have hcongr : (s2.map Prod.fst).filter (kvMatches rp (seenOf none))
      = (s2.map Prod.fst).filter (strHasPfx rp) :=
    List.filter_congr (fun x _ => by simp [kvMatches, seenOf])
  have hkeys : (kvList s2 rp none defaultLimit).keys
      = (s2.map Prod.fst).filter (strHasPfx rp) := by
    show ((s2.map Prod.fst).filter (kvMatches rp (seenOf none))).take defaultLimit = _
    rw [hcongr]
    exact List.take_of_length_le hN
  have hstore : (deleteKeysStore (fun _ => false) s2
        (kvList s2 rp none defaultLimit).keys)
      = s2.filter (fun e =>
          !(((s2.map Prod.fst).filter (strHasPfx rp)).contains e.fst)) := by
    rw [hkeys, deleteKeysStore_eq]
    refine List.filter_congr ?_
    intro e _
    simp
  refine ⟨rfl, ?_, ?_, ?_⟩
  · show ((deleteKeysStore (fun _ => false) s2
        (kvList s2 rp none defaultLimit).keys).map Prod.fst).filter
        (strHasPfx rp) = []
    rw [hstore, map_fst_filter
      (fun x => !(((s2.map Prod.fst).filter (strHasPfx rp)).contains x)) s2,
      List.filter_filter]
    rw [List.filter_eq_nil_iff]
    intro x hx
    intro hcontra
    rw [Bool.and_eq_true] at hcontra
    have h1 : strHasPfx rp x = true := hcontra.1
    have h2 := hcontra.2
    have hxM : x ∈ (s2.map Prod.fst).filter (strHasPfx rp) :=
      List.mem_filter.mpr ⟨hx, h1⟩
    have hcx : ((s2.map Prod.fst).filter (strHasPfx rp)).contains x = true :=
      List.elem_iff.mpr hxM
    rw [hcx] at h2
    exact absurd h2 (by decide)
  · show ((deleteKeysStore (fun _ => false) s2
        (kvList s2 rp none defaultLimit).keys).map Prod.fst).contains
        (EMAIL_PFX ++ email ++ "\x1fpassword") = false
    rw [hstore, map_fst_filter
      (fun x => !(((s2.map Prod.fst).filter (strHasPfx rp)).contains x)) s2]
    simp only [List.elem_eq_mem, decide_eq_false_iff_not]
    intro hmem
    have hmem2 : (EMAIL_PFX ++ email ++ "\x1fpassword") ∈ s2.map Prod.fst :=
      (List.mem_filter.mp hmem).1
    rw [hs2] at hmem2
    unfold kvDelete at hmem2
    rw [map_fst_filter (fun x => !(x == (EMAIL_PFX ++ email ++ "\x1fsubject"))) _,
      map_fst_filter (fun x => !(x == (EMAIL_PFX ++ email ++ "\x1fpassword"))) s]
      at hmem2
    have := (List.mem_filter.mp (List.mem_filter.mp hmem2).1).2
    simp at this
  · show ((deleteKeysStore (fun _ => false) s2
        (kvList s2 rp none defaultLimit).keys).map Prod.fst).contains
        (EMAIL_PFX ++ email ++ "\x1fsubject") = false
    rw [hstore, map_fst_filter
      (fun x => !(((s2.map Prod.fst).filter (strHasPfx rp)).contains x)) s2]
    simp only [List.elem_eq_mem, decide_eq_false_iff_not]
    intro hmem
    have hmem2 : (EMAIL_PFX ++ email ++ "\x1fsubject") ∈ s2.map Prod.fst :=
      (List.mem_filter.mp hmem).1
    rw [hs2] at hmem2
    unfold kvDelete at hmem2
    rw [map_fst_filter (fun x => !(x == (EMAIL_PFX ++ email ++ "\x1fsubject"))) _,
      map_fst_filter (fun x => !(x == (EMAIL_PFX ++ email ++ "\x1fpassword"))) s]
      at hmem2
    have := (List.mem_filter.mp hmem2).2
    simp at this

/-- C5 witness for the amended claim: a store whose subject has two refresh
keys, page size 1000 ≥ 2: both refresh keys, the credential key and the
mapping key are all removed and the status is `deleted`. -/
theorem delete_removes_refresh_page_witness :
    kvGet [("email\x1fa\x1fpassword", "h1"), ("email\x1fa\x1fsubject", "sub1"),
        ("oauth:refresh\x1fsub1\x1fs1", "t1"), ("oauth:refresh\x1fsub1\x1fs2", "t2")]
      (EMAIL_PFX ++ "a" ++ "\x1fsubject") = some "sub1" ∧
    ("sub1" : String).isEmpty = false ∧
    ((deleteUserAction 1000 false
        [("email\x1fa\x1fpassword", "h1"), ("email\x1fa\x1fsubject", "sub1"),
         ("oauth:refresh\x1fsub1\x1fs1", "t1"),
         ("oauth:refresh\x1fsub1\x1fs2", "t2")] "a").status = "deleted" ∧
     ((deleteUserAction 1000 false
        [("email\x1fa\x1fpassword", "h1"), ("email\x1fa\x1fsubject", "sub1"),
         ("oauth:refresh\x1fsub1\x1fs1", "t1"),
         ("oauth:refresh\x1fsub1\x1fs2", "t2")] "a").store.map Prod.fst).filter
        (strHasPfx ("oauth:refresh" ++ "\x1f" ++ "sub1" ++ "\x1f")) = [] ∧
     ((deleteUserAction 1000 false
        [("email\x1fa\x1fpassword", "h1"), ("email\x1fa\x1fsubject", "sub1"),
         ("oauth:refresh\x1fsub1\x1fs1", "t1"),
         ("oauth:refresh\x1fsub1\x1fs2", "t2")] "a").store.map Prod.fst).contains
        (EMAIL_PFX ++ "a" ++ "\x1fpassword") = false ∧
     ((deleteUserAction 1000 false
        [("email\x1fa\x1fpassword", "h1"), ("email\x1fa\x1fsubject", "sub1"),
         ("oauth:refresh\x1fsub1\x1fs1", "t1"),
         ("oauth:refresh\x1fsub1\x1fs2", "t2")] "a").store.map Prod.fst).contains
        (EMAIL_PFX ++ "a" ++ "\x1fsubject") = false) :=
  ⟨by decide, by decide,
   delete_removes_refresh_page 1000
     [("email\x1fa\x1fpassword", "h1"), ("email\x1fa\x1fsubject", "sub1"),
      ("oauth:refresh\x1fsub1\x1fs1", "t1"), ("oauth:refresh\x1fsub1\x1fs2", "t2")]
     "a" "sub1" (by decide) (by decide) (by decide)⟩

/-- C6: the bulk clear's cursor loop visits every key of both tracked
families before reporting completion: for every store (with KV's no-duplicate
key invariant) and every per-key deletion-failure pattern, with no fatal
`list` exception, the total attempted-deletion count equals the number of
keys under the email prefix plus the number under the refresh prefix —
including stores needing several 1000-key pages — and the scan ends without
a fatal error. -/
theorem clear_all_visits_every_key (fails : String → Bool)
    (pending : Option String) (s : Store)
    (hnd : (s.map Prod.fst).Nodup) :
    (clearAllAuthData fails (fun _ _ => false) pending s).attempted =
      ((s.map Prod.fst).filter (strHasPfx EMAIL_PFX)).length +
      ((s.map Prod.fst).filter (strHasPfx REFRESH_PFX)).length ∧
    (clearAllAuthData fails (fun _ _ => false) pending s).fatal = false := by
  have h := runClearPrefixes_both fails s hnd
  constructor
  · show (runClearPrefixes fails (fun _ _ => false) 1000 s
      prefixes_to_delete 0 0).attempted = _
    rw [h]
  · show (runClearPrefixes fails (fun _ _ => false) 1000 s
      prefixes_to_delete 0 0).fatal = false
    rw [h]

/-- C6 witness: three keys across the two families, no deletion failures. -/
theorem clear_all_visits_every_key_witness :
    (([("email\x1fa\x1fpassword", "h"), ("email\x1fa\x1fsubject", "s1"),
        ("oauth:refresh\x1fs1\x1ft1", "r")] : Store).map Prod.fst).Nodup ∧
    ((clearAllAuthData (fun _ => false) (fun _ _ => false) none
        [("email\x1fa\x1fpassword", "h"), ("email\x1fa\x1fsubject", "s1"),
         ("oauth:refresh\x1fs1\x1ft1", "r")]).attempted =
      ((([("email\x1fa\x1fpassword", "h"), ("email\x1fa\x1fsubject", "s1"),
          ("oauth:refresh\x1fs1\x1ft1", "r")] : Store).map Prod.fst).filter
          (strHasPfx EMAIL_PFX)).length +
      ((([("email\x1fa\x1fpassword", "h"), ("email\x1fa\x1fsubject", "s1"),
          ("oauth:refresh\x1fs1\x1ft1", "r")] : Store).map Prod.fst).filter
          (strHasPfx REFRESH_PFX)).length ∧
     (clearAllAuthData (fun _ => false) (fun _ _ => false) none
        [("email\x1fa\x1fpassword", "h"), ("email\x1fa\x1fsubject", "s1"),
         ("oauth:refresh\x1fs1\x1ft1", "r")]).fatal = false) :=
  ⟨by decide,
   clear_all_visits_every_key (fun _ => false) none
     [("email\x1fa\x1fpassword", "h"), ("email\x1fa\x1fsubject", "s1"),
      ("oauth:refresh\x1fs1\x1ft1", "r")] (by decide)⟩

/-- C7: the bulk clear reports exactly one of three outcomes —
`error` exactly when the scanning/pagination loop itself threw (deletion
failures never make it throw); and for completed scans, `success` exactly
when zero per-key deletion errors occurred, `partial` exactly when at least
one occurred (the code reports `partial` whenever the scan completed with
errors, because every counted error corresponds to an attempted deletion,
so the `attempted > 0` guard is then always met). -/
theorem clear_all_status_outcomes (fails : String → Bool)
    (listFatal : Store → Option (List String) → Bool)
    (pending : Option String) (s : Store) :
    ((clearAllAuthData fails listFatal pending s).overallStatus = "error"
      ↔ (clearAllAuthData fails listFatal pending s).fatal = true) ∧
    ((clearAllAuthData fails listFatal pending s).fatal = false →
      (((clearAllAuthData fails listFatal pending s).overallStatus = "success"
        ↔ (clearAllAuthData fails listFatal pending s).errors = 0) ∧
       ((clearAllAuthData fails listFatal pending s).overallStatus = "partial"
        ↔ 0 < (clearAllAuthData fails listFatal pending s).errors))) := by
  have hle := runClearPrefixes_err_le fails listFatal 1000 prefixes_to_delete s 0 0
  set r := runClearPrefixes fails listFatal 1000 s prefixes_to_delete 0 0 with hr
  have hst : (clearAllAuthData fails listFatal pending s).overallStatus
      = (if r.fatal then "error"
         else if r.errors > 0 then (if r.attempted > 0 then "partial" else "error")
         else "success") := rfl
  have hfa : (clearAllAuthData fails listFatal pending s).fatal = r.fatal := rfl
  have her : (clearAllAuthData fails listFatal pending s).errors = r.errors := rfl
  rw [hst, hfa, her]
  by_cases hf : r.fatal
  · rw [if_pos hf]
    refine ⟨⟨fun _ => hf, fun _ => rfl⟩, ?_⟩
    intro hcontra
    rw [hf] at hcontra
    cases hcontra
  · rw [if_neg hf]
    have hfx : r.fatal = false := by simpa using hf
    by_cases he : r.errors > 0
    · rw [if_pos he]
      have hatt : r.attempted > 0 := by omega
      rw [if_pos hatt]
      refine ⟨⟨fun h' => absurd h' (by decide), fun h' => ?_⟩, ?_⟩
      · rw [hfx] at h'; cases h'
      · intro _
        refine ⟨⟨fun h' => absurd h' (by decide), fun h' => ?_⟩,
          ⟨fun _ => he, fun _ => rfl⟩⟩
        omega
    · rw [if_neg he]
      have he0 : r.errors = 0 := by omega
      refine ⟨⟨fun h' => absurd h' (by decide), fun h' => ?_⟩, ?_⟩
      · rw [hfx] at h'; cases h'
      · intro _
        refine ⟨⟨fun _ => he0, fun _ => rfl⟩,
          ⟨fun h' => absurd h' (by decide), fun h' => ?_⟩⟩
        omega

/-- C7 witness: every deletion fails on a one-key store and the scan does
not throw: the reported outcome is `partial` (and not `error`). -/
theorem clear_all_status_outcomes_witness :
    (clearAllAuthData (fun _ => true) (fun _ _ => false) none
      [("email\x1fa\x1fpassword", "h")]).fatal = false ∧
    (clearAllAuthData (fun _ => true) (fun _ _ => false) none
      [("email\x1fa\x1fpassword", "h")]).overallStatus = "partial" :=
  ⟨by decide,
   ((clear_all_status_outcomes (fun _ => true) (fun _ _ => false) none
      [("email\x1fa\x1fpassword", "h")]).2 (by decide)).2.mpr (by decide)⟩

/-- C8: the 401 challenge page's HTML body is one constant template that
interpolates nothing: it is identical for every freshly minted challenge
value (two-run noninterference over the token), and the status is 401; the
token reaches only the console side channel. -/
theorem challenge_page_noninterference (c1 c2 : String) :
    (showChallengePage c1).body = (showChallengePage c2).body ∧
    (showChallengePage c1).httpStatus = 401 :=
  ⟨rfl, rfl⟩

/-- C9: a listed key that starts with the email prefix but has no delimiter
after it is skipped by the extraction pipeline — the listing result over a
page containing the malformed key equals the result over the same page
without it, so no identity derived from it is rendered while every other
key of the page is processed unchanged (and the pipeline is total: no
abort). -/
theorem malformed_key_skipped (xs ys : List String) (m : String)
    (hp : strHasPfx EMAIL_PFX m = true)
    (hd : (m.data.drop EMAIL_PFX.length).all (fun c => c != DELIM) = true) :
    extractEmails (xs ++ m :: ys) = extractEmails (xs ++ ys) := by
  unfold extractEmails
  rw [List.filter_append, List.filter_append, List.filter_cons, hp]
  rw [if_pos rfl]
  rw [List.map_append, List.map_append, List.map_cons,
    List.reduceOption_append, List.reduceOption_append,
    extractOne_no_delim m hd, List.reduceOption_cons_of_none]

/-- C9 witness: a malformed key `email\u001fbroken` between two well-formed
keys is skipped and the well-formed keys still yield their emails. -/
theorem malformed_key_skipped_witness :
    strHasPfx EMAIL_PFX "email\x1fbroken" = true ∧
    (("email\x1fbroken").data.drop EMAIL_PFX.length).all
      (fun c => c != DELIM) = true ∧
    extractEmails (["email\x1falice\x1fsubject"] ++ "email\x1fbroken"
      :: ["email\x1fbob\x1fpassword"]) =
    extractEmails (["email\x1falice\x1fsubject"] ++ ["email\x1fbob\x1fpassword"]) :=
  ⟨by decide, by decide,
   malformed_key_skipped ["email\x1falice\x1fsubject"] ["email\x1fbob\x1fpassword"]
     "email\x1fbroken" (by decide) (by decide)⟩

/-- C10: every email rendered into the admin pages goes through
`escapeHtml` (see `renderUserRow`), and for every input string the
`escapeHtml` output contains no raw `<`, `>`, `"` or `'` character, and
every `&` in it is the first character of one of the five entities
`&amp; &lt; &gt; &quot; &#039;` (the `ampOk` scanner), so store-key content
cannot inject markup. -/
theorem escapeHtml_blocks_markup (s : String) :
    (escapeHtmlS s).data.all (fun c => !(rawMarkup c)) = true ∧
    ampOk (escapeHtmlS s).data = true :=
  ⟨escapeHtml_all_safe s.data, ampOk_escapeHtml s.data⟩
